import Mathlib

/-!
# miob: latency benchmark for I/O readiness notification (main.c)

A shallow embedding of `main.c`.  The program is two processes (a parent that
drives and times the rounds, a child that produces the tokens) talking over
pipes.  Every system call is a point where the operating system answers; the
embedding takes those answers as explicit arguments and records the calls the
program makes, and the lines it prints, in an event list.

* C `int`/`long` values are `Int`.  The only arithmetic of the program is the
  countdown `--op` from `NUM_FD`, the microsecond difference `USEC` and its
  running sum, all signed, where C defines no result on overflow; `wrap64`
  and `USEC_in_long` below show that the 64-bit `long` computation of `USEC`
  coincides with the integer one for clock readings.
* C arrays (`rfds`, `wfds`, `poll_fds`) are lists, `a[i]` is `a.getD i 0`.
* `for (int i = 0; i < n; ++i)` is `forLoop n`.
-/

namespace Miob

/-! ## Output and system-call events -/

/-- The call sites of `perror` in main.c, named `function_call` after the
string literal `"function:call"` passed there. -/
inductive Site
  | main_setrlimit | main_sigaction | main_pipe | main_fork
  | reap_chld_wait
  | child_read | child_write
  | parent_write | parent_gettimeofday
  | wait_select_select | wait_poll_poll
  | setup_port_port_create | setup_port_port_associate
  | wait_port_port_get | wait_port_port_associate
  | setup_kqueue_kqueue | setup_kqueue_kevent | wait_kqueue_kevent
  | setup_epoll_epoll_create | setup_epoll_epoll_ctl | wait_epoll_epoll_wait
  deriving DecidableEq, Repr

/-- The lines the program prints, one constructor per format string. -/
inductive Line
  /-- Call `perror(site)`. -/
  | perror (site : Site)
  /-- Format `"%d fds ready!\n"` -/
  | fdsReady (nr : Int)
  /-- Format `"fd %d is ready for reading\n"` (main.c 481, 526, 594; also
  the lines of 662 and 719, worded `is read for reading`) -/
  | readyForReading (fd : Int)
  /-- Format `"Unexpected data %d at fd %d\n"` -/
  | unexpectedData (rd fd : Int)
  /-- Format `"Reached EOF at %d\n"` -/
  | reachedEOF (fd : Int)
  /-- Format `"Could not drain pipe [%d]\n"` -/
  | couldNotDrain (fd : Int)
  /-- Format `"Read %d, expected %lu\n"` -/
  | readExpected (nb : Int)
  /-- Format `"fd %d has been hung up on.\n"` -/
  | hungUp (fd : Int)
  /-- Format `"FD_SETSIZE: %d\n"` -/
  | fdSetsize
  /-- Format `"[child] write %d to fd %d\n"` -/
  | childWrite (a b : Int)
  /-- Format `"Child done. Leaving.\n"` -/
  | childDone
  /-- Format `"Average service time for %s was %ldus\n"` -/
  | average (duration : Int)
  deriving DecidableEq, Repr

/-- What a process does that the outside can see: system calls and output. -/
inductive Event
  /-- Call `select(nfds, &fds, NULL, NULL, NULL)` with the descriptors set in `fds` -/
  | sys_select (nfds : Int) (fds : List Int)
  /-- Call `poll(poll_fds, NUM_FD, -1)` with the `(fd, events)` entries -/
  | sys_poll (poll_fds : List (Int × Nat)) (n : Int)
  /-- Call `epoll_wait(epfd, &ev, 1, -1)` -/
  | sys_epoll_wait (epfd : Int)
  /-- Call `epoll_create(NUM_FD)` -/
  | sys_epoll_create (n : Int)
  /-- Call `epoll_ctl(epfd, EPOLL_CTL_ADD, fd, &ev)` -/
  | sys_epoll_ctl (epfd fd : Int)
  /-- Call `port_create()` -/
  | sys_port_create
  /-- Call `port_associate(evport, PORT_SOURCE_FD, fd, events, NULL)` -/
  | sys_port_associate (port fd : Int) (events : Nat)
  /-- Call `port_get(evport, &pe, NULL)` -/
  | sys_port_get (port : Int)
  /-- Call `kqueue()` -/
  | sys_kqueue
  /-- Call `kevent(kqfd, kqevents, NUM_FD, NULL, 0, NULL)` registering `fds` -/
  | sys_kevent_add (kqfd : Int) (fds : List Int)
  /-- Call `kevent(kqfd, NULL, 0, &ke, 1, NULL)` -/
  | sys_kevent_get (kqfd : Int)
  /-- Call `read(fd, &buf, 4)` -/
  | sys_read (fd : Int)
  /-- Call `write(fd, &v, 4)` -/
  | sys_write (fd : Int) (v : Int)
  /-- Call `close(fd)` -/
  | sys_close (fd : Int)
  /-- A printed line. -/
  | out (l : Line)
  deriving DecidableEq, Repr

/-- Number of `"Unexpected data"` lines in an event list. -/
def mismatchLines : List Event → Nat
  | [] => 0
  | Event.out (Line.unexpectedData _ _) :: es => mismatchLines es + 1
  | _ :: es => mismatchLines es

/-- Descriptors on which the event list performs a `read`. -/
def readsOf : List Event → List Int
  | [] => []
  | Event.sys_read fd :: es => fd :: readsOf es
  | _ :: es => readsOf es

/-- Number of calls of a blocking wait primitive (`select`, `poll`,
`epoll_wait`) in an event list. -/
def primitiveCalls : List Event → Nat
  | [] => 0
  | Event.sys_select _ _ :: es => primitiveCalls es + 1
  | Event.sys_poll _ _ :: es => primitiveCalls es + 1
  | Event.sys_epoll_wait _ :: es => primitiveCalls es + 1
  | _ :: es => primitiveCalls es

/-! ## Constants of the system headers -/

/-- Constant `POLLIN` of `<poll.h>`. -/
def POLLIN : Nat := 0x0001

/-- Constant `POLLHUP` of `<poll.h>`. -/
def POLLHUP : Nat := 0x0010

/-- Constant `EINTR` of `<errno.h>`. -/
def EINTR : Int := 4

/-- The value of `sizeof(int)`, the size of every token the program reads or writes. -/
def sizeof_int : Int := 4

/-! ## Program state -/

/-- The global variables of main.c, and `port`: the kernel side of the event
port `evport`, the events each descriptor is associated for (`none`: not
associated). -/
structure State where
  pid : Int
  NUM_FD : Int
  rfds : List Int
  wfds : List Int
  nfds : Int
  verbose : Bool
  poll_fds : List (Int × Nat)
  evport : Int
  port : Int → Option Nat
  kqfd : Int
  kqevents : List Int
  epfd : Int

/-- The globals as the C runtime initialises them (`nfds = 0`,
`verbose = 0`, everything else zero). -/
def State.init : State :=
  { pid := 0, NUM_FD := 0, rfds := [], wfds := [], nfds := 0, verbose := false,
    poll_fds := [], evport := 0, port := fun _ => none, kqfd := 0,
    kqevents := [], epfd := 0 }

/-- The loop `for (int i = 0; i < n; ++i) body`, the loop state threaded
through. -/
def forLoop {σ : Type} (n : Nat) (body : Nat → σ → σ) (s : σ) : σ :=
  (List.range n).foldl (fun acc i => body i acc) s

/-- The same loop with a body that may leave the function by `return e`. -/
def forLoopE {σ ε : Type} (n : Nat) (body : Nat → σ → Except ε σ) (s : σ) :
    Except ε σ :=
  (List.range n).foldlM (fun acc i => body i acc) s

/-! ## drain -/

/-- Answer of the operating system to `read(fd, &data, 4)`: the byte count
returned and the content of `data` after the call. -/
structure ReadAns where
  nb : Int
  data : Int

/-- Function `int drain(int fd)` (main.c 423-445). -/
def drain (s : State) (fd : Int) (r : ReadAns) : List Event × Int :=
  let log :=
    if r.nb = 0 then
      (if s.verbose then [Event.out (Line.reachedEOF fd)] else [])
    else if r.nb ≠ sizeof_int then
      [Event.out (Line.couldNotDrain fd), Event.out (Line.readExpected r.nb)]
    else []
  (Event.sys_read fd :: log, r.data)

/-! ## select backend -/

/-- An `fd_set`: the descriptors whose bit is set. -/
abbrev FdSet := List Int

/-- Macro `FD_ZERO`. -/
def FD_ZERO : FdSet := []

/-- Macro `FD_SET(fd, &set)`. -/
def FD_SET (fd : Int) (set : FdSet) : FdSet := fd :: set

/-- Macro `FD_ISSET(fd, &set)`. -/
def FD_ISSET (fd : Int) (set : FdSet) : Bool := decide (fd ∈ set)

/-- Answer of the operating system to one `wait_select`: the return value of
`select`, `errno`, the descriptor set as `select` leaves it, and the answer to
the `read` done in loop iteration `i`. -/
structure SelectAns where
  nr : Int
  errno : Int
  fds : FdSet
  reads : Nat → ReadAns

/-- Function `int setup_select(void)` (main.c 447-451). -/
def setup_select (s : State) : List Event × Int × State :=
  ([Event.out Line.fdSetsize], 0, s)

/-- Body of the second loop of `wait_select` (main.c 475-490). -/
def wait_select_body (s : State) (d : Int) (a : SelectAns) (i : Nat)
    (log : List Event) : List Event :=
  if FD_ISSET (s.rfds.getD i 0) a.fds then
    let v := if s.verbose then
      [Event.out (Line.readyForReading (s.rfds.getD i 0))] else []
    let rd := drain s (s.rfds.getD i 0) (a.reads i)
    let m := if rd.2 ≠ d then
      [Event.out (Line.unexpectedData rd.2 (s.rfds.getD i 0))] else []
    log ++ v ++ rd.1 ++ m
  else log

/-- Function `int wait_select(int d)` (main.c 453-494). -/
def wait_select (s : State) (d : Int) (a : SelectAns) :
    List Event × Int × State :=
  let fds := forLoop s.NUM_FD.toNat (fun i set => FD_SET (s.rfds.getD i 0) set)
    FD_ZERO
  let call := [Event.sys_select s.nfds fds]
  if a.nr < 0 then
    (call ++ [Event.out (Line.perror Site.wait_select_select)], -1, s)
  else
    let l1 := if a.nr ≠ 1 then [Event.out (Line.fdsReady a.nr)] else []
    (forLoop s.NUM_FD.toNat (wait_select_body s d a) (call ++ l1), 0, s)

/-! ## poll backend -/

/-- Answer of the operating system to one `wait_poll`: the return value of
`poll`, `errno`, `poll_fds[i].revents`, and the answer to the `read` done in
loop iteration `i`. -/
structure PollAns where
  nr : Int
  errno : Int
  revents : Nat → Nat
  reads : Nat → ReadAns

/-- Function `int setup_poll(void)` (main.c 496-505); the fresh array holds zeros. -/
def setup_poll (s : State) : List Event × Int × State :=
  let fresh : List (Int × Nat) := List.replicate s.NUM_FD.toNat (0, 0)
  let filled := forLoop s.NUM_FD.toNat
    (fun i p => p.set i (s.rfds.getD i 0, POLLIN)) fresh
  ([], 0, { s with poll_fds := filled })

/-- Body of the loop of `wait_poll` (main.c 520-543); the loop state is the
log and the counter `nr`. -/
def wait_poll_body (s : State) (d : Int) (a : PollAns) (i : Nat)
    (st : List Event × Int) : List Event × Int :=
  if a.revents i &&& POLLIN ≠ 0 then
    let v := if s.verbose then
      [Event.out (Line.readyForReading (s.rfds.getD i 0))] else []
    let rd := drain s (s.rfds.getD i 0) (a.reads i)
    let m := if rd.2 ≠ d then
      [Event.out (Line.unexpectedData rd.2 (s.rfds.getD i 0))] else []
    (st.1 ++ v ++ rd.1 ++ m, st.2 + 1)
  else if a.revents i &&& POLLHUP ≠ 0 then
    (st.1 ++ (if s.verbose then
      [Event.out (Line.hungUp (s.rfds.getD i 0))] else []), st.2)
  else st

/-- Function `int wait_poll(int d)` (main.c 507-551). -/
def wait_poll (s : State) (d : Int) (a : PollAns) : List Event × Int × State :=
  let call := [Event.sys_poll s.poll_fds s.NUM_FD]
  if a.nr < 0 then
    (call ++ [Event.out (Line.perror Site.wait_poll_poll)], -1, s)
  else
    let st := forLoop s.NUM_FD.toNat (wait_poll_body s d a) (call, 0)
    (st.1 ++ (if st.2 ≠ 1 then [Event.out (Line.fdsReady st.2)] else []), 0, s)

/-! ## epoll backend -/

/-- Answer of the operating system to `setup_epoll`: the return value of
`epoll_create` and of the `epoll_ctl` of loop iteration `i`. -/
structure EpollSetupAns where
  epfd : Int
  ctl : Nat → Int

/-- Function `int setup_epoll(void)` (main.c 679-701). -/
def setup_epoll (a : EpollSetupAns) (s : State) : List Event × Int × State :=
  let s1 := { s with epfd := a.epfd }
  if a.epfd < 0 then
    ([Event.sys_epoll_create s.NUM_FD,
      Event.out (Line.perror Site.setup_epoll_epoll_create)], -1, s1)
  else
    (forLoop s.NUM_FD.toNat
      (fun i log =>
        log ++ [Event.sys_epoll_ctl a.epfd (s.rfds.getD i 0)] ++
          (if a.ctl i ≠ 0 then
            [Event.out (Line.perror Site.setup_epoll_epoll_ctl)] else []))
      [Event.sys_epoll_create s.NUM_FD], 0, s1)

/-- Answer of the operating system to one `wait_epoll`: the return value of
`epoll_wait`, `errno`, `ev.data.fd`, and the answer to the `read`. -/
structure EpollAns where
  ne : Int
  errno : Int
  fd : Int
  read : ReadAns

/-- Function `int wait_epoll(int d)` (main.c 703-728). -/
def wait_epoll (s : State) (d : Int) (a : EpollAns) : List Event × Int × State :=
  let call := [Event.sys_epoll_wait s.epfd]
  if a.ne < 0 ∨ a.ne = 0 then
    (call ++ [Event.out (Line.perror Site.wait_epoll_epoll_wait)], -1, s)
  else
    let v := if s.verbose then [Event.out (Line.readyForReading a.fd)] else []
    let rd := drain s a.fd a.read
    let m := if rd.2 ≠ d then
      [Event.out (Line.unexpectedData rd.2 a.fd)] else []
    (call ++ v ++ rd.1 ++ m, 0, s)

/-! ## event-port backend (Solaris) -/

/-- Answer of the operating system to `setup_port`: the return value of
`port_create` and of the `port_associate` of loop iteration `i`. -/
structure PortSetupAns where
  evport : Int
  assoc : Nat → Int

/-- Kernel side of a successful `port_associate(evport, PORT_SOURCE_FD, fd,
events, NULL)`: the descriptor is associated for `events`. -/
def port_associate (port : Int → Option Nat) (fd : Int) (events : Nat) :
    Int → Option Nat :=
  Function.update port fd (some events)

/-- Body of the loop of `setup_port` (main.c 564-572); `Except.error` is the
`return 1` inside the loop. -/
def setup_port_body (a : PortSetupAns) (i : Nat) (st : List Event × State) :
    Except (List Event × State) (List Event × State) :=
  let fd := st.2.rfds.getD i 0
  let call := Event.sys_port_associate st.2.evport fd POLLIN
  if a.assoc i ≠ 0 then
    Except.error
      (st.1 ++ [call, Event.out (Line.perror Site.setup_port_port_associate)],
       st.2)
  else
    Except.ok
      (st.1 ++ [call], { st.2 with port := port_associate st.2.port fd POLLIN })

/-- Function `int setup_port(void)` (main.c 554-576); `port_create` returns a
port with nothing associated. -/
def setup_port (a : PortSetupAns) (s : State) : List Event × Int × State :=
  let s1 := { s with evport := a.evport }
  if a.evport < 0 then
    ([Event.sys_port_create,
      Event.out (Line.perror Site.setup_port_port_create)], 1, s1)
  else
    let s2 := { s1 with port := fun _ => none }
    match forLoopE s.NUM_FD.toNat (setup_port_body a) ([Event.sys_port_create], s2) with
    | Except.error st => (st.1, 1, st.2)
    | Except.ok st => (st.1, 0, st.2)

/-- Answer of the operating system to `setup_kqueue`: the return values of
`kqueue` and of the registering `kevent`. -/
structure KqueueSetupAns where
  kqfd : Int
  kevent : Int

/-- Function `int setup_kqueue(void)` (main.c 620-646). -/
def setup_kqueue (a : KqueueSetupAns) (s : State) : List Event × Int × State :=
  let s1 := { s with kqfd := a.kqfd }
  if a.kqfd < 0 then
    ([Event.sys_kqueue, Event.out (Line.perror Site.setup_kqueue_kqueue)], 1, s1)
  else
    let fresh : List Int := List.replicate s.NUM_FD.toNat 0
    let evs := forLoop s.NUM_FD.toNat (fun i k => k.set i (s.rfds.getD i 0)) fresh
    let s2 := { s1 with kqevents := evs }
    if a.kevent < 0 then
      ([Event.sys_kqueue, Event.sys_kevent_add a.kqfd evs,
        Event.out (Line.perror Site.setup_kqueue_kevent)], 1, s2)
    else
      ([Event.sys_kqueue, Event.sys_kevent_add a.kqfd evs], 0, s2)

/-- Answer of the operating system to one `wait_kqueue`: the return value of
`kevent`, `errno`, `ke.ident`, and the answer to the `read`. -/
structure KqueueAns where
  kevent : Int
  errno : Int
  ident : Int
  read : ReadAns

/-- Function `int wait_kqueue(int d)` (main.c 648-675). -/
def wait_kqueue (s : State) (d : Int) (a : KqueueAns) : List Event × Int × State :=
  let call := [Event.sys_kevent_get s.kqfd]
  if a.kevent < 0 then
    (call ++ [Event.out (Line.perror Site.wait_kqueue_kevent)], -1, s)
  else
    let fd := a.ident
    let v := if s.verbose then [Event.out (Line.readyForReading fd)] else []
    let rd := drain s fd a.read
    let m := if rd.2 ≠ d then [Event.out (Line.unexpectedData rd.2 fd)] else []
    (call ++ v ++ rd.1 ++ m, 0, s)

/-! ## The measurement loop: parent -/

/-- A `struct timeval`. -/
structure timeval where
  tv_sec : Int
  tv_usec : Int
  deriving DecidableEq, Repr

/-- Macro `USEC(start, stop)` (main.c 40-41). -/
def USEC (start stop : timeval) : Int :=
  ((stop.tv_sec - start.tv_sec) * 1000000) - (start.tv_usec - stop.tv_usec)

/-- A value reduced to the range of a two's complement 64-bit `long`. -/
def wrap64 (x : Int) : Int :=
  (x + 2 ^ 63) % 2 ^ 64 - 2 ^ 63

/-- Macro `USEC(start, stop)` with every operation carried out in `long`. -/
def USEC_long (start stop : timeval) : Int :=
  wrap64 (wrap64 (wrap64 (stop.tv_sec - start.tv_sec) * 1000000) -
    wrap64 (start.tv_usec - stop.tv_usec))

/-- Answers of the operating system during one round of the loop of `parent`:
the return value of `write(cntl, &op, 4)`, the two clock readings (`none`:
`gettimeofday` returned non-zero) and the answer to the backend wait. -/
structure RoundAns (ω : Type) where
  nb : Int
  start : Option timeval
  wait : ω
  stop : Option timeval

/-- What the parent does: the calls of the two backend functions with the
events they produce and their return value, its own system calls, and its
output. -/
inductive PEvent
  /-- Call `setup_multiplex()` -/
  | setup_multiplex (inner : List Event) (ret : Int)
  /-- Call `kill(pid, SIGKILL)` -/
  | kill_SIGKILL (pid : Int)
  /-- Call `write(cntl, &op, sizeof (op))` -/
  | write (cntl : Int) (op : Int)
  /-- Call `gettimeofday(&tv, NULL)` -/
  | gettimeofday
  /-- Call `wait4data(op)` -/
  | wait4data (d : Int) (inner : List Event) (ret : Int)
  /-- A printed line. -/
  | out (l : Line)
  deriving DecidableEq, Repr

/-- How a run of a process ends: the function returns, the process exits
with a status, the process sits in a blocking call that the given answers do
not cover, or it indexes an array outside its bounds. -/
inductive Ending
  | returned
  | exited (status : Int)
  | blocked
  | undefined
  deriving DecidableEq, Repr

/-- Result of running the loop of `parent`. -/
structure LoopRes where
  events : List PEvent
  ending : Ending
  state : State
  duration : Int

/-- The loop `while (op) ...` of `parent` (main.c 381-405), one answer record
per iteration. -/
def parent_loop {ω : Type}
    (wait4data : State → Int → ω → List Event × Int × State) (cntl : Int) :
    List (RoundAns ω) → State → Int → Int → LoopRes
  | [], s, op, duration =>
    if op = 0 then ⟨[], Ending.returned, s, duration⟩
    else ⟨[], Ending.blocked, s, duration⟩
  | r :: rest, s, op, duration =>
    if op = 0 then ⟨[], Ending.returned, s, duration⟩
    else
      let op1 := op - 1
      let w := [PEvent.write cntl op1] ++
        (if r.nb ≠ sizeof_int then [PEvent.out (Line.perror Site.parent_write)]
         else [])
      match r.start with
      | none =>
        ⟨w ++ [PEvent.gettimeofday,
            PEvent.out (Line.perror Site.parent_gettimeofday)],
          Ending.exited 1, s, duration⟩
      | some start =>
        let wt := wait4data s op1 r.wait
        let ev := w ++ [PEvent.gettimeofday, PEvent.wait4data op1 wt.1 wt.2.1]
        match r.stop with
        | none =>
          ⟨ev ++ [PEvent.gettimeofday,
              PEvent.out (Line.perror Site.parent_gettimeofday)],
            Ending.exited 1, wt.2.2, duration⟩
        | some stop =>
          let res := parent_loop wait4data cntl rest wt.2.2 op1
            (duration + USEC start stop)
          ⟨ev ++ [PEvent.gettimeofday] ++ res.events, res.ending, res.state,
            res.duration⟩

/-- Function `void parent(int cntl)` (main.c 366-411).  `duration` of the
result is the total before the division; `NUM_FD` is not zero (`get_args`
exits otherwise, main.c 235-249). -/
def parent {ω : Type} (setup_multiplex : State → List Event × Int × State)
    (wait4data : State → Int → ω → List Event × Int × State)
    (s : State) (cntl : Int) (rounds : List (RoundAns ω)) : LoopRes :=
  let op := s.NUM_FD
  let su := setup_multiplex s
  if su.2.1 ≠ 0 then
    ⟨[PEvent.setup_multiplex su.1 su.2.1, PEvent.kill_SIGKILL s.pid],
      Ending.returned, su.2.2, 0⟩
  else
    let res := parent_loop wait4data cntl rounds su.2.2 op 0
    match res.ending with
    | Ending.returned =>
      ⟨PEvent.setup_multiplex su.1 su.2.1 :: res.events ++
          [PEvent.out (Line.average (res.duration.tdiv s.NUM_FD))],
        Ending.returned, res.state, res.duration⟩
    | e => ⟨PEvent.setup_multiplex su.1 su.2.1 :: res.events, e, res.state,
        res.duration⟩

/-- The indices the parent writes to the control channel, in order. -/
def requested : List PEvent → List Int
  | [] => []
  | PEvent.write _ op :: es => op :: requested es
  | _ :: es => requested es

/-- The expected values the parent passes to the backend wait, in order. -/
def waited : List PEvent → List Int
  | [] => []
  | PEvent.wait4data d _ _ :: es => d :: waited es
  | _ :: es => waited es

/-- The writes to the control channel and the calls of the backend wait, in
the order the parent performs them: `Sum.inl op` for a write of `op`,
`Sum.inr d` for a call `wait4data(d)`. -/
def protocol : List PEvent → List (Int ⊕ Int)
  | [] => []
  | PEvent.write _ op :: es => Sum.inl op :: protocol es
  | PEvent.wait4data d _ _ :: es => Sum.inr d :: protocol es
  | _ :: es => protocol es

/-- The averages the parent reports. -/
def reported : List PEvent → List Int
  | [] => []
  | PEvent.out (Line.average m) :: es => m :: reported es
  | _ :: es => reported es

/-! ## The producer: child -/

/-- The allocations of `main` (main.c 111-112); the fresh arrays hold zeros. -/
def main_malloc (s : State) : State :=
  { s with rfds := List.replicate s.NUM_FD.toNat 0,
           wfds := List.replicate s.NUM_FD.toNat 0 }

/-- Body of the loop over the worker pipes of `main` (main.c 133-150);
`pipe i` is what the `pipe(fds)` of iteration `i` stores in `fds`, `none`
when it fails; `Except.error 1` is the `return 1`. -/
def main_pipes_body (pipe : Nat → Option (Int × Int)) (i : Nat) (s : State) :
    Except Int State :=
  match pipe i with
  | none => Except.error 1
  | some fds =>
    let s1 := { s with rfds := s.rfds.set i fds.1, wfds := s.wfds.set i fds.2 }
    let s2 := if fds.2 > s1.nfds then { s1 with nfds := fds.2 } else s1
    let s3 := if fds.1 > s2.nfds then { s2 with nfds := fds.1 } else s2
    Except.ok s3

/-- The loop over the worker pipes of `main` (main.c 131-151), after the
allocations. -/
def main_pipes (pipe : Nat → Option (Int × Int)) (s : State) : Except Int State :=
  forLoopE s.NUM_FD.toNat (main_pipes_body pipe) (main_malloc s)

/-! ## Auxiliary definitions for the statements -/

/-- The request sequence of `n` rounds: write `n-1-k`, then wait for `n-1-k`. -/
def descending (n : Nat) : List (Int ⊕ Int) :=
  (List.range n).flatMap
    (fun (k : Nat) => [Sum.inl ((n : Int) - 1 - k), Sum.inr ((n : Int) - 1 - k)])

/-- Loop invariant of the pipe loop of `main` after `k` iterations. -/
def PipesInv (s : State) (pipe : Nat → Option (Int × Int)) (k : Nat) (st : State) : Prop :=
  st.NUM_FD = s.NUM_FD ∧ st.rfds.length = s.NUM_FD.toNat ∧
  st.wfds.length = s.NUM_FD.toNat ∧
  (∀ i, i < k → pipe i = some (st.rfds.getD i 0, st.wfds.getD i 0)) ∧
  s.nfds ≤ st.nfds ∧
  (∀ i, i < k → st.rfds.getD i 0 ≤ st.nfds ∧ st.wfds.getD i 0 ≤ st.nfds) ∧
  (st.nfds = s.nfds ∨ ∃ i, i < k ∧ st.nfds = st.wfds.getD i 0)

/-- The globals with four channels, as `main` leaves them. -/
def st4 : State :=
  { State.init with pid := 77, NUM_FD := 4, rfds := [5, 7, 9, 11],
                    wfds := [6, 8, 10, 12], nfds := 12 }

/-- The globals with two channels, as `main` leaves them. -/
def st2 : State :=
  { State.init with pid := 77, NUM_FD := 2, rfds := [5, 7], wfds := [6, 8], nfds := 8 }

/-- An answer of `poll` failing with `errno`. -/
def pollFails (errno : Int) : PollAns :=
  ⟨-1, errno, fun _ => 0, fun _ => ⟨0, 0⟩⟩

/-- An answer of `poll` reporting entry `i` readable, the token read being `v`. -/
def pollReady (i : Nat) (v : Int) : PollAns :=
  ⟨1, 0, fun j => if j = i then POLLIN else 0, fun _ => ⟨4, v⟩⟩

/-- Two rounds of the poll backend on `st2`, each answered as expected. -/
def rounds2 : List (RoundAns PollAns) :=
  [⟨4, some ⟨10, 999990⟩, pollReady 1 1, some ⟨11, 5⟩⟩,
   ⟨4, some ⟨11, 10⟩, pollReady 0 0, some ⟨11, 21⟩⟩]

theorem forLoopE_zero {σ ε : Type} (body : Nat → σ → Except ε σ) (s : σ) :
    forLoopE 0 body s = Except.ok s := by
  simp [forLoopE]
  rfl

theorem forLoopE_succ {σ ε : Type} (n : Nat) (body : Nat → σ → Except ε σ) (s : σ) :
    forLoopE (n + 1) body s = (forLoopE n body s).bind (body n) := by
  simp only [forLoopE, List.range_succ, List.foldlM_append]
  cases h : List.foldlM (fun acc i => body i acc) s (List.range n) with
  | error e => rfl
  | ok st =>
    show (do let init ← Except.ok st; List.foldlM (fun acc i => body i acc) init [n]) = _
    simp [List.foldlM]
    rfl


/-! ## Backend waits -/

theorem forLoop_zero {σ : Type} (body : Nat → σ → σ) (s : σ) :
    forLoop 0 body s = s := by
  simp [forLoop]

theorem forLoop_succ {σ : Type} (n : Nat) (body : Nat → σ → σ) (s : σ) :
    forLoop (n + 1) body s = body n (forLoop n body s) := by
  simp [forLoop, List.range_succ, List.foldl_append]

theorem mismatchLines_append (l1 l2 : List Event) :
    mismatchLines (l1 ++ l2) = mismatchLines l1 + mismatchLines l2 := by
  induction l1 with
  | nil => simp [mismatchLines]
  | cons e es ih =>
    cases e with
    | out l => cases l <;> simp [mismatchLines, ih]; omega
    | _ => simp [mismatchLines, ih]

theorem mismatchLines_drain (s : State) (fd : Int) (r : ReadAns) :
    mismatchLines (drain s fd r).1 = 0 := by
  unfold drain
  by_cases h0 : r.nb = 0
  · by_cases hv : s.verbose <;> simp [h0, hv, mismatchLines]
  · by_cases h4 : r.nb = sizeof_int <;> simp [h0, h4, mismatchLines]

theorem drain_value (s : State) (fd : Int) (r : ReadAns) :
    (drain s fd r).2 = r.data := rfl

theorem mismatchLines_ready (b : Bool) (fd : Int) :
    mismatchLines (if b then [Event.out (Line.readyForReading fd)] else []) = 0 := by
  cases b <;> simp [mismatchLines]

theorem mismatchLines_unexpected (rd d fd : Int) :
    mismatchLines (if rd ≠ d then [Event.out (Line.unexpectedData rd fd)] else [])
      = if rd ≠ d then 1 else 0 := by
  by_cases h : rd = d <;> simp [h, mismatchLines]


theorem wait_select_body_mismatch (s : State) (d : Int) (a : SelectAns) (k : Nat)
    (log : List Event) :
    mismatchLines (wait_select_body s d a k log) =
      mismatchLines log +
        (if FD_ISSET (s.rfds.getD k 0) a.fds = true ∧ (a.reads k).data ≠ d then 1 else 0) := by
  unfold wait_select_body
  by_cases h : FD_ISSET (s.rfds.getD k 0) a.fds = true
  · simp only [h, if_true, mismatchLines_append, mismatchLines_drain, mismatchLines_ready,
      mismatchLines_unexpected, drain_value, true_and]
    omega
  · simp [h, -List.getD_eq_getElem?_getD]

theorem wait_select_loop_mismatch (s : State) (d : Int) (a : SelectAns) (i : Nat)
    (hi : FD_ISSET (s.rfds.getD i 0) a.fds = true)
    (hj : ∀ j, j < s.NUM_FD.toNat → j ≠ i → FD_ISSET (s.rfds.getD j 0) a.fds = false)
    (init : List Event) (k : Nat) (hk : k ≤ s.NUM_FD.toNat) :
    mismatchLines (forLoop k (wait_select_body s d a) init) =
      mismatchLines init + (if i < k ∧ (a.reads i).data ≠ d then 1 else 0) := by
  induction k with
  | zero => simp [forLoop_zero]
  | succ k ih =>
    rw [forLoop_succ, wait_select_body_mismatch, ih (by omega)]
    by_cases hki : k = i
    · subst hki
      simp [hi, -List.getD_eq_getElem?_getD]
    · have h1 := hj k (by omega) hki
      have h2 : (i < k + 1) ↔ i < k := by omega
      simp [h1, h2, -List.getD_eq_getElem?_getD]

theorem wait_poll_body_mismatch (s : State) (d : Int) (a : PollAns) (k : Nat)
    (st : List Event × Int) :
    mismatchLines (wait_poll_body s d a k st).1 =
      mismatchLines st.1 +
        (if a.revents k &&& POLLIN ≠ 0 ∧ (a.reads k).data ≠ d then 1 else 0) := by
  unfold wait_poll_body
  by_cases h : a.revents k &&& POLLIN ≠ 0
  · rw [if_pos h]
    simp only [h, mismatchLines_append, mismatchLines_drain, mismatchLines_ready,
      mismatchLines_unexpected, drain_value, true_and, not_false_eq_true, ne_eq]
    omega
  · by_cases h2 : a.revents k &&& POLLHUP ≠ 0
    · by_cases hv : s.verbose <;>
        simp [h, h2, hv, mismatchLines_append, mismatchLines, -List.getD_eq_getElem?_getD]
    · simp [h, h2, -List.getD_eq_getElem?_getD]

theorem wait_poll_loop_mismatch (s : State) (d : Int) (a : PollAns) (i : Nat)
    (hi : a.revents i &&& POLLIN ≠ 0)
    (hj : ∀ j, j < s.NUM_FD.toNat → j ≠ i → a.revents j &&& POLLIN = 0)
    (init : List Event × Int) (k : Nat) (hk : k ≤ s.NUM_FD.toNat) :
    mismatchLines (forLoop k (wait_poll_body s d a) init).1 =
      mismatchLines init.1 + (if i < k ∧ (a.reads i).data ≠ d then 1 else 0) := by
  induction k with
  | zero => simp [forLoop_zero]
  | succ k ih =>
    rw [forLoop_succ, wait_poll_body_mismatch, ih (by omega)]
    by_cases hki : k = i
    · subst hki
      simp [hi]
    · have h1 := hj k (by omega) hki
      have h2 : (i < k + 1) ↔ i < k := by omega
      simp [h1, h2]

theorem mismatchLines_fdsReady (c : Prop) [Decidable c] (nr : Int) :
    mismatchLines (if c then [Event.out (Line.fdsReady nr)] else []) = 0 := by
  by_cases h : c <;> simp [h, mismatchLines]

/-- C4: in `wait_select`, `wait_poll` and `wait_epoll`, when the primitive
succeeds and reports exactly one channel ready, the call prints exactly one
"Unexpected data" line if the value drained from that channel differs from the
expected index `d` and none if it equals `d`, and it returns 0 either way. -/
theorem wait_logs_mismatch_once (s : State) (d : Int) :
    (∀ (a : SelectAns) (i : Nat), 0 ≤ a.nr → i < s.NUM_FD.toNat →
      FD_ISSET (s.rfds.getD i 0) a.fds = true →
      (∀ j, j < s.NUM_FD.toNat → j ≠ i → FD_ISSET (s.rfds.getD j 0) a.fds = false) →
      mismatchLines (wait_select s d a).1 = (if (a.reads i).data ≠ d then 1 else 0) ∧
        (wait_select s d a).2.1 = 0) ∧
    (∀ (a : PollAns) (i : Nat), 0 ≤ a.nr → i < s.NUM_FD.toNat →
      a.revents i &&& POLLIN ≠ 0 →
      (∀ j, j < s.NUM_FD.toNat → j ≠ i → a.revents j &&& POLLIN = 0) →
      mismatchLines (wait_poll s d a).1 = (if (a.reads i).data ≠ d then 1 else 0) ∧
        (wait_poll s d a).2.1 = 0) ∧
    (∀ (a : EpollAns), a.ne = 1 →
      mismatchLines (wait_epoll s d a).1 = (if a.read.data ≠ d then 1 else 0) ∧
        (wait_epoll s d a).2.1 = 0) := by
  refine ⟨?_, ?_, ?_⟩
  · intro a i hnr hi hset hothers
    have hlt : ¬ a.nr < 0 := by omega
    unfold wait_select
    simp only [hlt, if_false]
    rw [wait_select_loop_mismatch s d a i hset hothers _ _ (le_refl _)]
    by_cases h1 : a.nr = 1 <;> simp [h1, mismatchLines, hi]
  · intro a i hnr hi hset hothers
    have hlt : ¬ a.nr < 0 := by omega
    unfold wait_poll
    simp only [hlt, if_false, mismatchLines_append, mismatchLines_fdsReady]
    rw [wait_poll_loop_mismatch s d a i hset hothers _ _ (le_refl _)]
    simp [mismatchLines, hi]
  · intro a hne
    have hlt : ¬ (a.ne < 0 ∨ a.ne = 0) := by omega
    unfold wait_epoll
    simp only [hlt, if_false, mismatchLines_append, mismatchLines_drain, mismatchLines_ready,
      mismatchLines_unexpected, drain_value]
    simp [mismatchLines]

theorem wait_logs_mismatch_once_witness :
    (mismatchLines (wait_select st2 1 ⟨1, 0, [7], fun _ => ⟨4, 0⟩⟩).1 = 1 ∧
      (wait_select st2 1 ⟨1, 0, [7], fun _ => ⟨4, 0⟩⟩).2.1 = 0) ∧
    (mismatchLines (wait_poll st2 1 (pollReady 1 1)).1 = 0 ∧
      (wait_poll st2 1 (pollReady 1 1)).2.1 = 0) ∧
    (mismatchLines (wait_epoll st2 1 ⟨1, 0, 7, ⟨4, 0⟩⟩).1 = 1 ∧
      (wait_epoll st2 1 ⟨1, 0, 7, ⟨4, 0⟩⟩).2.1 = 0) :=
  ⟨(wait_logs_mismatch_once st2 1).1 ⟨1, 0, [7], fun _ => ⟨4, 0⟩⟩ 1
      (by decide) (by decide) (by decide) (by decide),
   (wait_logs_mismatch_once st2 1).2.1 (pollReady 1 1) 1
      (by decide) (by decide) (by decide) (by decide),
   (wait_logs_mismatch_once st2 1).2.2 ⟨1, 0, 7, ⟨4, 0⟩⟩ (by decide)⟩

/-- C8 (as the code has it): when the blocking primitive fails, by `EINTR` or
any other error, `wait_select`, `wait_poll` and `wait_epoll` do not call it a
second time: they print the diagnostic, read from no channel and return -1. -/
theorem wait_fails_without_retry (s : State) (d : Int) :
    (∀ a : SelectAns, a.nr < 0 →
      (wait_select s d a).2.1 = -1 ∧ primitiveCalls (wait_select s d a).1 = 1 ∧
        readsOf (wait_select s d a).1 = []) ∧
    (∀ a : PollAns, a.nr < 0 →
      (wait_poll s d a).2.1 = -1 ∧ primitiveCalls (wait_poll s d a).1 = 1 ∧
        readsOf (wait_poll s d a).1 = []) ∧
    (∀ a : EpollAns, a.ne < 0 →
      (wait_epoll s d a).2.1 = -1 ∧ primitiveCalls (wait_epoll s d a).1 = 1 ∧
        readsOf (wait_epoll s d a).1 = []) := by
  refine ⟨?_, ?_, ?_⟩
  · intro a h
    simp [wait_select, h, primitiveCalls, readsOf]
  · intro a h
    simp [wait_poll, h, primitiveCalls, readsOf]
  · intro a h
    simp [wait_epoll, h, primitiveCalls, readsOf]

theorem wait_fails_without_retry_witness :
    (wait_poll st4 3 (pollFails EINTR)).2.1 = -1 ∧
      primitiveCalls (wait_poll st4 3 (pollFails EINTR)).1 = 1 ∧
      readsOf (wait_poll st4 3 (pollFails EINTR)).1 = [] :=
  (wait_fails_without_retry st4 3).2.1 (pollFails EINTR) (by decide)

/-- C8 fails: `poll` interrupted by a signal (`EINTR`) makes `wait_poll`
return -1 after a single call of `poll`, no channel drained; the same holds
for `select` and `epoll_wait`. -/
theorem wait_gives_up_on_EINTR :
    wait_poll st4 3 (pollFails EINTR) =
      ([Event.sys_poll st4.poll_fds 4, Event.out (Line.perror Site.wait_poll_poll)],
        -1, st4) ∧
    (wait_select st4 3 ⟨-1, EINTR, [], fun _ => ⟨0, 0⟩⟩).1 =
      [Event.sys_select 12 [11, 9, 7, 5],
        Event.out (Line.perror Site.wait_select_select)] ∧
    (wait_select st4 3 ⟨-1, EINTR, [], fun _ => ⟨0, 0⟩⟩).2.1 = -1 ∧
    (wait_epoll st4 3 ⟨-1, EINTR, 0, ⟨0, 0⟩⟩).1 =
      [Event.sys_epoll_wait 0, Event.out (Line.perror Site.wait_epoll_epoll_wait)] ∧
    (wait_epoll st4 3 ⟨-1, EINTR, 0, ⟨0, 0⟩⟩).2.1 = -1 := by
  refine ⟨rfl, ?_, ?_, ?_, ?_⟩ <;> decide

/-- C7: evaluation at the failing input.  With two channels, `poll` fails in
the first round (`EBADF`, 9) and `wait_poll` returns -1; the parent goes on
all the same: it writes index 0 and calls `wait_poll(0)`. -/
theorem parent_continues_after_wait_failure :
    protocol (parent setup_poll wait_poll st2 4
      [⟨4, some ⟨10, 0⟩, pollFails 9, some ⟨10, 5⟩⟩,
       ⟨4, some ⟨10, 6⟩, pollReady 0 0, some ⟨10, 9⟩⟩]).events =
      [Sum.inl 1, Sum.inr 1, Sum.inl 0, Sum.inr 0] ∧
    (parent setup_poll wait_poll st2 4
      [⟨4, some ⟨10, 0⟩, pollFails 9, some ⟨10, 5⟩⟩,
       ⟨4, some ⟨10, 6⟩, pollReady 0 0, some ⟨10, 9⟩⟩]).events.take 4 =
      [PEvent.setup_multiplex [] 0, PEvent.write 4 1, PEvent.gettimeofday,
       PEvent.wait4data 1 [Event.sys_poll [(5, 1), (7, 1)] 2,
         Event.out (Line.perror Site.wait_poll_poll)] (-1)] := by
  decide

/-- C6: evaluation at the failing input.  With two channels, every
`epoll_ctl` of `setup_epoll` fails, yet `setup_epoll` returns 0 and the parent
sends no `SIGKILL` but starts the rounds: it writes index 1 and calls
`wait_epoll(1)`. -/
theorem setup_epoll_hides_ctl_failure :
    (setup_epoll ⟨3, fun _ => -1⟩ st2).2.1 = 0 ∧
    (setup_epoll ⟨3, fun _ => -1⟩ st2).1 =
      [Event.sys_epoll_create 2,
       Event.sys_epoll_ctl 3 5, Event.out (Line.perror Site.setup_epoll_epoll_ctl),
       Event.sys_epoll_ctl 3 7, Event.out (Line.perror Site.setup_epoll_epoll_ctl)] ∧
    protocol (parent (setup_epoll ⟨3, fun _ => -1⟩) wait_epoll st2 4
      [⟨4, some ⟨10, 0⟩, ⟨1, 0, 7, ⟨4, 1⟩⟩, some ⟨10, 5⟩⟩]).events =
      [Sum.inl 1, Sum.inr 1] ∧
    PEvent.kill_SIGKILL 77 ∉ (parent (setup_epoll ⟨3, fun _ => -1⟩) wait_epoll st2 4
      [⟨4, some ⟨10, 0⟩, ⟨1, 0, 7, ⟨4, 1⟩⟩, some ⟨10, 5⟩⟩]).events := by
  decide

/-- A failing `setup_multiplex` makes the parent send `SIGKILL` to the child
and return: it writes nothing to the control channel and never calls the
backend wait. -/
theorem parent_setup_failure {ω : Type}
    (setup_multiplex : State → List Event × Int × State)
    (wait4data : State → Int → ω → List Event × Int × State)
    (s : State) (cntl : Int) (rounds : List (RoundAns ω))
    (h : (setup_multiplex s).2.1 ≠ 0) :
    (parent setup_multiplex wait4data s cntl rounds).events =
      [PEvent.setup_multiplex (setup_multiplex s).1 (setup_multiplex s).2.1,
       PEvent.kill_SIGKILL s.pid] ∧
    (parent setup_multiplex wait4data s cntl rounds).ending = Ending.returned ∧
    protocol (parent setup_multiplex wait4data s cntl rounds).events = [] := by
  unfold parent
  simp [h, protocol]

/-! ## The parent loop -/

theorem protocol_append (l1 l2 : List PEvent) :
    protocol (l1 ++ l2) = protocol l1 ++ protocol l2 := by
  induction l1 with
  | nil => simp [protocol]
  | cons e es ih => cases e <;> simp [protocol, ih]

theorem reported_append (l1 l2 : List PEvent) :
    reported (l1 ++ l2) = reported l1 ++ reported l2 := by
  induction l1 with
  | nil => simp [reported]
  | cons e es ih =>
    cases e with
    | out l => cases l <;> simp [reported, ih]
    | _ => simp [reported, ih]

theorem descending_succ (n : Nat) :
    descending (n + 1) = Sum.inl (n : Int) :: Sum.inr (n : Int) :: descending n := by
  unfold descending
  rw [List.range_succ_eq_map]
  simp [List.flatMap_cons, List.flatMap_map, Function.comp_def]
  congr 1
  funext k
  simp
  omega

theorem parent_loop_protocol {ω : Type}
    (wait4data : State → Int → ω → List Event × Int × State) (cntl : Int) (n : Nat) :
    ∀ (rounds : List (RoundAns ω)) (s : State) (duration : Int),
      n ≤ rounds.length →
      (∀ r ∈ rounds, r.start.isSome = true ∧ r.stop.isSome = true) →
      (parent_loop wait4data cntl rounds s n duration).ending = Ending.returned ∧
      protocol (parent_loop wait4data cntl rounds s n duration).events = descending n ∧
      reported (parent_loop wait4data cntl rounds s n duration).events = [] := by
  induction n with
  | zero =>
    intro rounds s duration _ _
    cases rounds <;> simp [parent_loop, protocol, reported, descending]
  | succ n ih =>
    intro rounds s duration hlen hclock
    cases rounds with
    | nil => simp at hlen
    | cons r rest =>
      have hr := hclock r (by simp)
      obtain ⟨start, hstart⟩ := Option.isSome_iff_exists.mp hr.1
      obtain ⟨stop, hstop⟩ := Option.isSome_iff_exists.mp hr.2
      have hne : ((n + 1 : Nat) : Int) ≠ 0 := by omega
      have hop : ((n + 1 : Nat) : Int) - 1 = (n : Int) := by omega
      have ih1 := ih rest (wait4data s n r.wait).2.2 (duration + USEC start stop)
        (by simpa using hlen) (fun x hx => hclock x (by simp [hx]))
      unfold parent_loop
      simp only [hne, if_false, hstart, hstop, hop]
      refine ⟨ih1.1, ?_, ?_⟩
      · simp only [protocol_append, ih1.2.1, descending_succ]
        by_cases hnb : r.nb = sizeof_int <;> simp [hnb, protocol]
      · simp only [reported_append, ih1.2.2]
        by_cases hnb : r.nb = sizeof_int <;> simp [hnb, reported]

theorem wrap64_of_range (x : Int) (h1 : -(2 ^ 63) ≤ x) (h2 : x < 2 ^ 63) :
    wrap64 x = x := by
  unfold wrap64
  have e63 : (2 : Int) ^ 63 = 9223372036854775808 := by norm_num
  have e64 : (2 : Int) ^ 64 = 18446744073709551616 := by norm_num
  rw [e63] at h1 h2 ⊢
  rw [e64]
  omega

/-- For clock readings whose seconds are below `2 ^ 40` in absolute value and
whose microseconds are in `0..999999`, `USEC` carried out in 64-bit `long`
arithmetic gives the integer value of `USEC`: nothing wraps. -/
theorem USEC_in_long (start stop : timeval)
    (hs : -(2 ^ 40) ≤ start.tv_sec ∧ start.tv_sec ≤ 2 ^ 40)
    (ht : -(2 ^ 40) ≤ stop.tv_sec ∧ stop.tv_sec ≤ 2 ^ 40)
    (hsu : 0 ≤ start.tv_usec ∧ start.tv_usec ≤ 999999)
    (htu : 0 ≤ stop.tv_usec ∧ stop.tv_usec ≤ 999999) :
    USEC_long start stop = USEC start stop := by
  have e40 : (2 : Int) ^ 40 = 1099511627776 := by norm_num
  have e63 : (2 : Int) ^ 63 = 9223372036854775808 := by norm_num
  rw [e40] at hs ht
  unfold USEC_long USEC
  rw [wrap64_of_range (stop.tv_sec - start.tv_sec) (by rw [e63]; omega) (by rw [e63]; omega),
    wrap64_of_range ((stop.tv_sec - start.tv_sec) * 1000000) (by rw [e63]; omega)
      (by rw [e63]; omega),
    wrap64_of_range (start.tv_usec - stop.tv_usec) (by rw [e63]; omega) (by rw [e63]; omega),
    wrap64_of_range _ (by rw [e63]; omega) (by rw [e63]; omega)]

theorem requested_of_protocol (es : List PEvent) :
    requested es = (protocol es).filterMap (fun x => x.getLeft?) := by
  induction es with
  | nil => simp [requested, protocol]
  | cons e es ih => cases e <;> simp [requested, protocol, ih]

theorem waited_of_protocol (es : List PEvent) :
    waited es = (protocol es).filterMap (fun x => x.getRight?) := by
  induction es with
  | nil => simp [waited, protocol]
  | cons e es ih => cases e <;> simp [waited, protocol, ih]

theorem descending_left (n : Nat) :
    (descending n).filterMap (fun x => x.getLeft?) =
      (List.range n).map (fun (k : Nat) => (n : Int) - 1 - (k : Int)) := by
  induction n with
  | zero => simp [descending]
  | succ n ih =>
    rw [descending_succ, List.range_succ_eq_map]
    simp [ih, Function.comp_def]
    intro a _
    omega

theorem descending_right (n : Nat) :
    (descending n).filterMap (fun x => x.getRight?) =
      (List.range n).map (fun (k : Nat) => (n : Int) - 1 - (k : Int)) := by
  induction n with
  | zero => simp [descending]
  | succ n ih =>
    rw [descending_succ, List.range_succ_eq_map]
    simp [ih, Function.comp_def]
    intro a _
    omega

theorem parent_of_loop {ω : Type}
    (setup_multiplex : State → List Event × Int × State)
    (wait4data : State → Int → ω → List Event × Int × State)
    (s : State) (cntl : Int) (rounds : List (RoundAns ω))
    (hsetup : (setup_multiplex s).2.1 = 0)
    (hend : (parent_loop wait4data cntl rounds (setup_multiplex s).2.2 s.NUM_FD 0).ending
      = Ending.returned) :
    parent setup_multiplex wait4data s cntl rounds =
      ⟨PEvent.setup_multiplex (setup_multiplex s).1 0 ::
          (parent_loop wait4data cntl rounds (setup_multiplex s).2.2 s.NUM_FD 0).events ++
          [PEvent.out (Line.average
            ((parent_loop wait4data cntl rounds (setup_multiplex s).2.2 s.NUM_FD 0).duration.tdiv
              s.NUM_FD))],
        Ending.returned,
        (parent_loop wait4data cntl rounds (setup_multiplex s).2.2 s.NUM_FD 0).state,
        (parent_loop wait4data cntl rounds (setup_multiplex s).2.2 s.NUM_FD 0).duration⟩ := by
  unfold parent
  simp only [hsetup, ne_eq, not_true_eq_false, if_false, hend]

/-- C1: with `NUM_FD = N ≥ 1` and a successful `setup_multiplex`, the parent
performs exactly N rounds and returns: round `k` writes `N-1-k` to the control
channel and then calls `wait4data(N-1-k)`, so the requested indices are
`N-1, ..., 1, 0`, each within `0..N-1` (clock readings succeeding). -/
theorem parent_requests_descend {ω : Type}
    (setup_multiplex : State → List Event × Int × State)
    (wait4data : State → Int → ω → List Event × Int × State)
    (s : State) (cntl : Int) (rounds : List (RoundAns ω))
    (hN : 1 ≤ s.NUM_FD) (hsetup : (setup_multiplex s).2.1 = 0)
    (hlen : s.NUM_FD.toNat ≤ rounds.length)
    (hclock : ∀ r ∈ rounds, r.start.isSome = true ∧ r.stop.isSome = true) :
    (parent setup_multiplex wait4data s cntl rounds).ending = Ending.returned ∧
    protocol (parent setup_multiplex wait4data s cntl rounds).events =
      (List.range s.NUM_FD.toNat).flatMap
        (fun (k : Nat) => [Sum.inl (s.NUM_FD - 1 - k), Sum.inr (s.NUM_FD - 1 - k)]) ∧
    requested (parent setup_multiplex wait4data s cntl rounds).events =
      (List.range s.NUM_FD.toNat).map (fun (k : Nat) => s.NUM_FD - 1 - (k : Int)) ∧
    waited (parent setup_multiplex wait4data s cntl rounds).events =
      requested (parent setup_multiplex wait4data s cntl rounds).events ∧
    (∀ v ∈ requested (parent setup_multiplex wait4data s cntl rounds).events,
      0 ≤ v ∧ v < s.NUM_FD) := by
  have hcast : ((s.NUM_FD.toNat : Nat) : Int) = s.NUM_FD := Int.toNat_of_nonneg (by omega)
  have hloop := parent_loop_protocol wait4data cntl s.NUM_FD.toNat rounds
    (setup_multiplex s).2.2 0 hlen hclock
  rw [hcast] at hloop
  obtain ⟨hend, hproto, -⟩ := hloop
  have hdesc : descending s.NUM_FD.toNat = (List.range s.NUM_FD.toNat).flatMap
      (fun (k : Nat) => [Sum.inl (s.NUM_FD - 1 - k), Sum.inr (s.NUM_FD - 1 - k)]) := by
    unfold descending
    rw [hcast]
  have hP : protocol (parent setup_multiplex wait4data s cntl rounds).events =
      descending s.NUM_FD.toNat := by
    rw [parent_of_loop setup_multiplex wait4data s cntl rounds hsetup hend]
    simp [protocol, protocol_append, hproto]
  have hR : requested (parent setup_multiplex wait4data s cntl rounds).events =
      (List.range s.NUM_FD.toNat).map (fun (k : Nat) => s.NUM_FD - 1 - (k : Int)) := by
    rw [requested_of_protocol, hP, descending_left, hcast]
  refine ⟨?_, ?_, hR, ?_, ?_⟩
  · rw [parent_of_loop setup_multiplex wait4data s cntl rounds hsetup hend]
  · rw [hP, hdesc]
  · rw [hR, waited_of_protocol, hP, descending_right, hcast]
  · intro v hv
    rw [hR] at hv
    simp only [List.mem_map, List.mem_range] at hv
    obtain ⟨k, hk, rfl⟩ := hv
    omega

theorem parent_requests_descend_witness :
    (parent setup_poll wait_poll st2 4 rounds2).ending = Ending.returned ∧
    protocol (parent setup_poll wait_poll st2 4 rounds2).events =
      [Sum.inl 1, Sum.inr 1, Sum.inl 0, Sum.inr 0] ∧
    requested (parent setup_poll wait_poll st2 4 rounds2).events = [1, 0] :=
  have h := parent_requests_descend setup_poll wait_poll st2 4 rounds2
    (by decide) (by decide) (by decide) (by decide)
  ⟨h.1, h.2.1, h.2.2.1⟩

/-- A failing `port_associate` in `setup_port` makes it return 1. -/
theorem setup_port_registration_failure (s : State) (pa : PortSetupAns) (i : Nat)
    (hi : i < s.NUM_FD.toNat) (hfail : pa.assoc i ≠ 0) :
    (setup_port pa s).2.1 = 1 := by
  unfold setup_port
  by_cases hp : pa.evport < 0
  · simp [hp]
  · simp only [hp, if_false]
    have key : ∀ (k : Nat) (init : List Event × State), i < k →
        ∃ e, forLoopE k (setup_port_body pa) init = Except.error e := by
      intro k init hk
      induction k with
      | zero => omega
      | succ k ih =>
        rw [forLoopE_succ]
        cases hl : forLoopE k (setup_port_body pa) init with
        | error e => exact ⟨e, rfl⟩
        | ok st =>
          have hik : i = k := by
            by_contra hne
            obtain ⟨e, he⟩ := ih (by omega)
            rw [hl] at he
            cases he
          subst hik
          simp [Except.bind, setup_port_body, hfail]
    obtain ⟨e, he⟩ := key s.NUM_FD.toNat _ hi
    rw [he]

/-- A failing registration `kevent` in `setup_kqueue` makes it return 1. -/
theorem setup_kqueue_registration_failure (s : State) (a : KqueueSetupAns)
    (hfail : a.kevent < 0) : (setup_kqueue a s).2.1 = 1 := by
  unfold setup_kqueue
  by_cases hq : a.kqfd < 0 <;> simp [hq, hfail]

/-- Whatever `epoll_ctl` returns, `setup_epoll` returns 0 once `epoll_create`
has succeeded. -/
theorem setup_epoll_returns_zero (s : State) (a : EpollSetupAns)
    (hcreate : 0 ≤ a.epfd) : (setup_epoll a s).2.1 = 0 := by
  have h : ¬ a.epfd < 0 := by omega
  simp [setup_epoll, h]

/-! ## The descriptor bound of select -/

theorem getD_set (l : List Int) (i j : Nat) (a : Int) :
    (l.set i a).getD j 0 = if i = j ∧ i < l.length then a else l.getD j 0 := by
  simp only [List.getD_eq_getElem?_getD, List.getElem?_set]
  by_cases h : i = j
  · subst h
    by_cases hl : i < l.length
    · simp [hl]
    · simp [hl, List.getElem?_eq_none (Nat.le_of_not_lt hl)]
  · simp [h]

theorem mem_select_set (rfds : List Int) (n : Nat) (fd : Int) :
    fd ∈ forLoop n (fun i set => FD_SET (rfds.getD i 0) set) FD_ZERO ↔
      ∃ i, i < n ∧ fd = rfds.getD i 0 := by
  induction n with
  | zero => simp [forLoop_zero, FD_ZERO]
  | succ n ih =>
    rw [forLoop_succ]
    show fd ∈ rfds.getD n 0 ::
      forLoop n (fun i set => FD_SET (rfds.getD i 0) set) FD_ZERO ↔ _
    rw [List.mem_cons, ih]
    constructor
    · rintro (h | ⟨i, hi, h⟩)
      · exact ⟨n, by omega, h⟩
      · exact ⟨i, by omega, h⟩
    · rintro ⟨i, hi, h⟩
      by_cases hin : i = n
      · subst hin
        exact Or.inl h
      · exact Or.inr ⟨i, by omega, h⟩

theorem main_pipes_loop (s : State) (pipe : Nat → Option (Int × Int))
    (hpipe : ∀ i, i < s.NUM_FD.toNat →
      ∃ r w, pipe i = some (r, w) ∧ 0 ≤ r ∧ r < w)
    (k : Nat) (hk : k ≤ s.NUM_FD.toNat) :
    ∃ st, forLoopE k (main_pipes_body pipe) (main_malloc s) = Except.ok st ∧
      PipesInv s pipe k st := by
  induction k with
  | zero =>
    refine ⟨main_malloc s, forLoopE_zero _ _, ?_⟩
    simp [PipesInv, main_malloc]
  | succ k ih =>
    obtain ⟨st, hst, hN, hr, hw, hp, hn, hb, hmax⟩ := ih (by omega)
    obtain ⟨r, w, hrw, hr0, hlt⟩ := hpipe k (by omega)
    rw [forLoopE_succ, hst]
    simp only [Except.bind, main_pipes_body, hrw]
    refine ⟨_, rfl, ?_⟩
    have hkr : k < st.rfds.length := by omega
    have hkw : k < st.wfds.length := by omega
    by_cases h1 : w > st.nfds
    · have h2 : ¬ r > w := by omega
      simp only [h1, if_true, h2, if_false]
      refine ⟨hN, by simpa using hr, by simpa using hw, ?_, by simp; omega, ?_, ?_⟩
      · intro i hi
        simp only [getD_set]
        by_cases hik : k = i
        · subst hik; simp [hkr, hkw, hrw]
        · simp [hik]; simpa using hp i (by omega)
      · intro i hi
        simp only [getD_set]
        by_cases hik : k = i
        · subst hik; simp [hkr, hkw]; omega
        · simp [hik]
          have := hb i (by omega)
          simp at this
          omega
      · right
        exact ⟨k, by omega, by simp [getD_set, hkw]⟩
    · have h2 : ¬ r > st.nfds := by omega
      simp only [h1, if_false, h2]
      refine ⟨hN, by simpa using hr, by simpa using hw, ?_, hn, ?_, ?_⟩
      · intro i hi
        simp only [getD_set]
        by_cases hik : k = i
        · subst hik; simp [hkr, hkw, hrw]
        · simp [hik]; simpa using hp i (by omega)
      · intro i hi
        simp only [getD_set]
        by_cases hik : k = i
        · subst hik; simp [hkr, hkw]; omega
        · simp [hik]
          have := hb i (by omega)
          simpa using this
      · rcases hmax with h | ⟨i, hi, h⟩
        · left; exact h
        · right
          refine ⟨i, by omega, ?_⟩
          have hik : k ≠ i := by omega
          simp [getD_set, hik]
          simpa using h

theorem wait_select_body_extends (s : State) (d : Int) (a : SelectAns) (i : Nat)
    (log : List Event) : ∃ t, wait_select_body s d a i log = log ++ t := by
  unfold wait_select_body
  split
  · exact ⟨_, by simp only [List.append_assoc]; rfl⟩
  · exact ⟨[], by simp⟩

theorem wait_select_loop_extends (s : State) (d : Int) (a : SelectAns) (k : Nat)
    (init : List Event) :
    ∃ t, forLoop k (wait_select_body s d a) init = init ++ t := by
  induction k with
  | zero => exact ⟨[], by simp [forLoop_zero]⟩
  | succ k ih =>
    obtain ⟨t, ht⟩ := ih
    obtain ⟨u, hu⟩ := wait_select_body_extends s d a k (init ++ t)
    exact ⟨t ++ u, by rw [forLoop_succ, ht, hu, List.append_assoc]⟩

/-- C10: with `N ≥ 1` pipes of non-negative descriptors, each read end
numbered below its write end, the pipe loop of `main` leaves in `nfds` the
maximum of all descriptors, every `rfds[i]` is strictly below `nfds`, and so
every descriptor `wait_select` passes to `select(nfds, ...)` lies in
`0..nfds-1`; without the order between the two ends (a pipe `(4, 3)`) the
read end equals `nfds` and is outside that range. -/
theorem nfds_above_read_ends :
    (∀ (s : State) (pipe : Nat → Option (Int × Int)),
      1 ≤ s.NUM_FD → s.nfds = 0 →
      (∀ i, i < s.NUM_FD.toNat → ∃ r w, pipe i = some (r, w) ∧ 0 ≤ r ∧ r < w) →
      ∃ st, main_pipes pipe s = Except.ok st ∧ st.NUM_FD = s.NUM_FD ∧
        (∀ i, i < s.NUM_FD.toNat →
          pipe i = some (st.rfds.getD i 0, st.wfds.getD i 0)) ∧
        (∀ i, i < s.NUM_FD.toNat →
          st.rfds.getD i 0 ≤ st.nfds ∧ st.wfds.getD i 0 ≤ st.nfds) ∧
        (∃ i, i < s.NUM_FD.toNat ∧ st.nfds = st.wfds.getD i 0) ∧
        (∀ i, i < s.NUM_FD.toNat →
          0 ≤ st.rfds.getD i 0 ∧ st.rfds.getD i 0 < st.nfds) ∧
        (∀ (d : Int) (a : SelectAns), ∃ fds,
          (wait_select st d a).1.head? = some (Event.sys_select st.nfds fds) ∧
          ∀ fd ∈ fds, 0 ≤ fd ∧ fd < st.nfds)) ∧
    (∃ (s : State) (pipe : Nat → Option (Int × Int)) (st : State),
      1 ≤ s.NUM_FD ∧ s.nfds = 0 ∧
      (∀ i, i < s.NUM_FD.toNat → ∃ r w, pipe i = some (r, w) ∧ 0 ≤ r ∧ 0 ≤ w) ∧
      main_pipes pipe s = Except.ok st ∧
      ∃ i, i < s.NUM_FD.toNat ∧ st.rfds.getD i 0 = st.nfds ∧
        ¬ st.rfds.getD i 0 < st.nfds) := by
  constructor
  · intro s pipe hN h0 hpipe
    obtain ⟨st, hst, hnum, hr, hw, hp, hn, hb, hmax⟩ :=
      main_pipes_loop s pipe hpipe s.NUM_FD.toNat (le_refl _)
    have hread : ∀ i, i < s.NUM_FD.toNat →
        0 ≤ st.rfds.getD i 0 ∧ st.rfds.getD i 0 < st.nfds := by
      intro i hi
      obtain ⟨r, w, hrw, hr0, hlt⟩ := hpipe i hi
      have h1 := hp i hi
      rw [hrw] at h1
      simp only [Option.some.injEq, Prod.mk.injEq] at h1
      have h2 := hb i hi
      omega
    refine ⟨st, hst, hnum, hp, hb, ?_, hread, ?_⟩
    · rcases hmax with h | h
      · exfalso
        have hi : 0 < s.NUM_FD.toNat := by omega
        have := hread 0 hi
        omega
      · exact h
    · intro d a
      refine ⟨forLoop st.NUM_FD.toNat (fun i set => FD_SET (st.rfds.getD i 0) set) FD_ZERO,
        ?_, ?_⟩
      · unfold wait_select
        by_cases hnr : a.nr < 0
        · simp [hnr]
        · simp only [hnr, if_false]
          obtain ⟨t, ht⟩ := wait_select_loop_extends st d a st.NUM_FD.toNat
            ([Event.sys_select st.nfds (forLoop st.NUM_FD.toNat
              (fun i set => FD_SET (st.rfds.getD i 0) set) FD_ZERO)] ++
              (if a.nr ≠ 1 then [Event.out (Line.fdsReady a.nr)] else []))
          rw [ht]
          rfl
      · intro fd hfd
        rw [mem_select_set, hnum] at hfd
        obtain ⟨i, hi, rfl⟩ := hfd
        exact hread i hi
  · refine ⟨{ State.init with NUM_FD := 1 }, fun _ => some (4, 3),
      { State.init with NUM_FD := 1, rfds := [4], wfds := [3], nfds := 4 },
      by decide, rfl, ?_, rfl, 0, by decide, rfl, by decide⟩
    intro i _
    exact ⟨4, 3, rfl, by decide, by decide⟩

theorem nfds_above_read_ends_witness :
    (main_pipes (fun i => some (5 + 2 * (i : Int), 6 + 2 * (i : Int)))
        { State.init with NUM_FD := 2 }).toOption.map
      (fun st => decide (st.rfds.getD 1 0 < st.nfds)) = some true := by
  obtain ⟨st, h, -, -, -, -, hread, -⟩ :=
    nfds_above_read_ends.1 { State.init with NUM_FD := 2 }
      (fun i => some (5 + 2 * (i : Int), 6 + 2 * (i : Int))) (by decide) rfl
      (fun i _ => ⟨5 + 2 * (i : Int), 6 + 2 * (i : Int), rfl, by omega, by omega⟩)
  rw [h]
  simp [Except.toOption, (hread 1 (by decide)).2, -List.getD_eq_getElem?_getD]

end Miob
